import Mathlib

/-!
A verification development for the network-monitoring application:
the ping supervisor (`src/electron/main.js`), its statistics functions
(`calcPingStats`, `calcPacketLoss`), the speedtest runner (`runSpeedtest`),
and the SQLite query layer (`src/electron/database.js`: `getPingStats`,
`getPacketLoss`, `getPingHistory`, `insertTimeout`).

Conventions of the embedding:
* JavaScript numbers that hold latencies are modelled as `ℚ`;
  epoch times and sequence numbers as `ℕ` (they are produced by
  `Math.floor(Date.now() / 1000)` and `parseInt`, both non-negative here).
* A JavaScript value that can be `NaN`/`null`/`undefined`/`'N/A'` is
  modelled as an `Option`.
* Each definition mirrors one function of the source; the doc comment
  names it.
-/

namespace NetMon

/-- Insertion of one element into an ascending list; helper for `sortAsc`. -/
def insertSorted {α : Type} [LinearOrder α] (x : α) : List α → List α
  | [] => [x]
  | y :: ys => if x ≤ y then x :: y :: ys else y :: insertSorted x ys

/-- Ascending sort, modelling both the JavaScript numeric sort
`pings.sort((a, b) => a - b)` in `calcPingStats` and the SQL
`ORDER BY time_ms` in `getPingStats`. -/
def sortAsc {α : Type} [LinearOrder α] : List α → List α
  | [] => []
  | x :: xs => insertSorted x (sortAsc xs)

/-- Arithmetic mean of a list of rationals (the `reduce`/`length` pattern
used throughout `main.js`); meaningful on non-empty lists. -/
def listAvg (l : List ℚ) : ℚ := l.sum / l.length

/-- The median computed by `calcPingStats` (`src/electron/main.js`,
lines 230-232): after sorting ascending, the middle element when the
count is odd, else the mean of the two central elements. -/
def calcMed (pings : List ℚ) : ℚ :=
  let s := sortAsc pings
  if pings.length % 2 = 1 then s.getD (pings.length / 2) 0
  else (s.getD (pings.length / 2 - 1) 0 + s.getD (pings.length / 2) 0) / 2

/-- The median computed by `getPingStats` (`src/electron/database.js`,
lines 116-128): the SQL query `ORDER BY time_ms LIMIT 1 OFFSET count / 2`
returns the element at index `count / 2` (0-based) of the ascending-sorted
list; when no row is returned the code falls back to the window average. -/
def dbMed (pings : List ℚ) : ℚ :=
  match (sortAsc pings).get? (pings.length / 2) with
  | some v => v
  | none => listAvg pings

/-- The standard statistical median, stated from the spec's words:
"for samples sorted ascending, the single middle value if count is odd,
else the mean of the two central values". -/
def specMedian (pings : List ℚ) : ℚ :=
  let s := sortAsc pings
  if pings.length % 2 = 1 then s.getD (pings.length / 2) 0
  else (s.getD (pings.length / 2 - 1) 0 + s.getD (pings.length / 2) 0) / 2

/-- Packet-loss summary, as returned by both `calcPacketLoss` and
`getPacketLoss`. -/
structure PacketLossStats where
  percent : ℚ
  lost : ℕ
  total : ℕ
  deriving Repr, DecidableEq

/-- `getPacketLoss` (`src/electron/database.js`, lines 221-242) applied to
the sequence numbers of the non-timeout rows of the window:
`first_seq = MIN(seq)`, `last_seq = MAX(seq)`, `actual_count = COUNT(*)`;
`expected = last_seq - first_seq + 1`; `lost = max(0, expected - count)`;
`percent = lost / expected * 100`; all zero when there are no rows. -/
def getPacketLoss (seqs : List ℕ) : PacketLossStats :=
  match seqs with
  | [] => { percent := 0, lost := 0, total := 0 }
  | s :: rest =>
    let firstSeq := rest.foldl min s
    let lastSeq := rest.foldl max s
    let expected := lastSeq - firstSeq + 1
    let lost := expected - seqs.length
    { percent := (lost : ℚ) / (expected : ℚ) * 100, lost := lost, total := expected }

/-! ## Ping supervisor: processing of a parsed real sample
(`startPing`, `src/electron/main.js` lines 65-125). -/

/-- The constant `TIMEOUT_THRESHOLD = 2` of `main.js` line 46 (seconds). -/
def TIMEOUT_THRESHOLD : ℤ := 2

/-- A gap event as written by `logGap` and sent on the `ping-timeout`
channel: the wall-clock gap in seconds and the two sequence numbers. -/
structure GapEvent where
  gap : ℤ
  seqFrom : ℕ
  seqTo : ℕ
  deriving Repr, DecidableEq

/-- A packet-loss event as sent on the `packet-loss` channel. -/
structure LossEvent where
  lost : ℕ
  seqFrom : ℕ
  seqTo : ℕ
  deriving Repr, DecidableEq

/-- The mutable trackers of the ping supervisor
(`lastPingTime`, `lastSeq`, `main.js` lines 44-45). -/
structure PingMonState where
  lastPingTime : ℕ
  lastSeq : ℕ
  deriving Repr, DecidableEq

/-- Gap detection on arrival (`main.js` lines 90-97): with a previous
arrival time recorded (`lastPingTime > 0`), a gap event is produced when
`currentTime - lastPingTime` strictly exceeds `TIMEOUT_THRESHOLD`. -/
def detectGap (st : PingMonState) (currentTime seq : ℕ) : Option GapEvent :=
  if 0 < st.lastPingTime then
    let gap : ℤ := (currentTime : ℤ) - (st.lastPingTime : ℤ)
    if TIMEOUT_THRESHOLD < gap then some ⟨gap, st.lastSeq, seq⟩ else none
  else none

/-- Packet-loss detection on arrival (`main.js` lines 100-107): with a
previous sequence recorded (`lastSeq > 0`) and `seq > lastSeq + 1`, the
number lost is `seq - (lastSeq + 1)`. -/
def detectLoss (st : PingMonState) (seq : ℕ) : Option LossEvent :=
  if 0 < st.lastSeq then
    if st.lastSeq + 1 < seq then some ⟨seq - (st.lastSeq + 1), st.lastSeq, seq⟩
    else none
  else none

/-- One parsed real sample processed by the `stdout` handler of
`startPing` (`main.js` lines 78-114): the two detections run on the old
trackers, then `lastPingTime := currentTime` and `lastSeq := seq`. -/
def processSample (st : PingMonState) (currentTime seq : ℕ) :
    PingMonState × Option GapEvent × Option LossEvent :=
  (⟨currentTime, seq⟩, detectGap st currentTime seq, detectLoss st seq)

/-! ## Watchdog of the DB-backed supervisor (claim C1)
The watchdog itself lives in the DB-backed main process, which is not
among the provided source files; only its callee `insertTimeout`
(`src/electron/database.js` lines 93-96) is. Its state transition is
therefore modelled from the spec. -/

/-- A ping-samples row, mirroring the `pings` table of `database.js`:
`time_ms`, `seq`, `ttl` are nullable, `is_timeout` is a flag. -/
structure PingSample where
  latencyMs : Option ℚ
  seq : Option ℕ
  ttl : Option ℕ
  isTimeout : Bool
  deriving Repr, DecidableEq

/-- The row inserted by `insertTimeout` (`database.js` lines 93-96):
`INSERT INTO pings (time_ms, seq, ttl, is_timeout) VALUES (NULL, NULL, NULL, 1)`. -/
def timeoutMarker : PingSample :=
  { latencyMs := none, seq := none, ttl := none, isTimeout := true }

/-- Watchdog-relevant state: the last real-arrival wall clock
(milliseconds) and the inserted samples, append-only. -/
structure WatchdogState where
  lastArrival : ℕ
  samples : List PingSample
  deriving Repr, DecidableEq

/-- Modelled from the spec: one tick of the 1-second watchdog of the
DB-backed main process (absent from the provided sources). "If
`now − lastArrivalWallClock > 1.5s`, insert a synthetic
`PingSample{isTimeout=true}`"; times in milliseconds, the inserted row
is the one of `insertTimeout`; `lastArrival` is not updated. -/
def watchdogTick (now : ℕ) (st : WatchdogState) : WatchdogState :=
  if st.lastArrival + 1500 < now then
    { st with samples := st.samples ++ [timeoutMarker] }
  else st

/-- Modelled from the spec: a real sample arriving at wall clock `t`
(milliseconds) is inserted as a non-timeout row and resets the arrival
clock (`lastArrivalWallClock := t`). -/
def realArrival (t : ℕ) (latency : ℚ) (seq ttl : ℕ) (st : WatchdogState) :
    WatchdogState :=
  { lastArrival := t,
    samples := st.samples ++
      [{ latencyMs := some latency, seq := some seq, ttl := some ttl,
         isTimeout := false }] }

/-- A run of consecutive watchdog ticks at the given times. -/
def runTicks (ticks : List ℕ) (st : WatchdogState) : WatchdogState :=
  ticks.foldl (fun s t => watchdogTick t s) st

/-! ## Speedtest runner (`runSpeedtest`, `src/electron/main.js` lines 139-201). -/

/-- A parsed line of today's ping CSV log: the timestamp (epoch seconds)
and `parseFloat` of the latency column (`none` when not numeric). -/
structure PingLogEntry where
  ts : ℕ
  latency : Option ℚ
  deriving Repr, DecidableEq

/-- The last `n` elements of a list (JavaScript `slice(-n)`; the whole
list when shorter than `n`). -/
def lastN {α : Type} (n : ℕ) (l : List α) : List α := l.drop (l.length - n)

/-- The `pingAvg` correlation value computed inside `runSpeedtest`
(`main.js` lines 158-168): the arithmetic mean of the parseable latencies
among the last 100 lines of today's ping log, `none` (printed `'N/A'`)
when there are none. -/
def pingAvgLast100 (log : List PingLogEntry) : Option ℚ :=
  let pings := (lastN 100 log).filterMap PingLogEntry.latency
  if pings.length = 0 then none else some (pings.sum / pings.length)

/-- The average over the 5-minute window, stated from the spec's words
("the StatisticsEngine's 5-minute window average (absent if no samples)"),
for comparison with `pingAvgLast100`; `now` in epoch seconds. -/
def windowAvg5 (now : ℕ) (log : List PingLogEntry) : Option ℚ :=
  let pings := (log.filter (fun e => now ≤ e.ts + 300)).filterMap PingLogEntry.latency
  if pings.length = 0 then none else some (pings.sum / pings.length)

/-- Digits-to-number accumulator used by `jsParseFloat`. -/
def natOfDigits (cs : List Char) : ℕ :=
  cs.foldl (fun a c => a * 10 + (c.toNat - 48)) 0

/-- Whitespace test for `jsTrim`/`jsParseFloat` (the characters JS
treats as whitespace that can occur in CLI output). -/
def isWs (c : Char) : Bool :=
  c = ' ' || c = '\t' || c = '\n' || c = '\r'

/-- JavaScript `String.prototype.trim`, on the character list of the
string: strip whitespace from both ends. -/
def jsTrim (cs : List Char) : List Char :=
  ((cs.dropWhile isWs).reverse.dropWhile isWs).reverse

/-- JavaScript `String.prototype.split(',')`, on the character list:
splitting the empty string yields one empty field, like JS. -/
def splitComma : List Char → List (List Char)
  | [] => [[]]
  | c :: rest =>
    match splitComma rest with
    | [] => [[c]]
    | h :: t => if c = ',' then [] :: h :: t else (c :: h) :: t

/-- The digit-prefix split of JavaScript `parseFloat`: skip leading
whitespace, read an optional sign, an integer-digit prefix and an
optional fractional-digit prefix; `none` when no digit is consumed
(the `NaN` case). -/
def jsParseParts (s : List Char) : Option (Bool × List Char × List Char) :=
  let cs := s.dropWhile isWs
  let signed : Bool × List Char :=
    match cs with
    | '-' :: rest => (true, rest)
    | '+' :: rest => (false, rest)
    | _ => (false, cs)
  let ip := signed.2.takeWhile Char.isDigit
  let cs2 := signed.2.dropWhile Char.isDigit
  let fp :=
    match cs2 with
    | '.' :: rest => rest.takeWhile Char.isDigit
    | _ => []
  if ip = [] ∧ fp = [] then none else some (signed.1, ip, fp)

/-- A model of JavaScript `parseFloat` on the character list of the
string; `none` models `NaN`. Exponent suffixes, which the speedtest CSV
never produces, are not modelled. -/
def jsParseFloat (s : List Char) : Option ℚ :=
  (jsParseParts s).map (fun p =>
    let v : ℚ := (natOfDigits p.2.1 : ℚ) + (natOfDigits p.2.2 : ℚ) / (10 ^ p.2.2.length)
    if p.1 then -v else v)

/-- JavaScript `x || d` for a CSV field: a missing (`undefined`, read
back as the empty default) or empty field falls back to the default. -/
def jsOr (s d : List Char) : List Char := if s = [] then d else s

/-- The parsed speedtest result (`main.js` lines 182-186): `server` and
`latency` are kept as strings (character lists), `download`/`upload` are
`parseFloat(parts[i] || 0) / 1000000`, with `none` modelling `NaN`. -/
structure ParsedSpeed where
  server : List Char
  latency : List Char
  download : Option ℚ
  upload : Option ℚ
  deriving Repr, DecidableEq

/-- The parsing of the speedtest-cli CSV output inside the `try` block of
`runSpeedtest` (`main.js` lines 182-186): `parts = stdout.trim().split(',')`;
`server = parts[2] || 'Unknown'`; `latency = parts[5] || '0'`;
`download/upload = parseFloat(parts[6/7] || 0) / 1000000`. None of these
operations can throw. -/
def parseSpeedtestOutput (stdout : List Char) : ParsedSpeed :=
  let parts := splitComma (jsTrim stdout)
  { server := jsOr (parts.getD 2 []) ("Unknown".data),
    latency := jsOr (parts.getD 5 []) ("0".data),
    download := (jsParseFloat (jsOr (parts.getD 6 []) ("0".data))).map (fun v => v / 1000000),
    upload := (jsParseFloat (jsOr (parts.getD 7 []) ("0".data))).map (fun v => v / 1000000) }

/-- One line of the speedtest CSV log: the ping average column and, for a
successful probe, the four result columns (`none` models the
`N/A,N/A,N/A,N/A` failure row). -/
structure SpeedRecord where
  pingAvg : Option ℚ
  outcome : Option ParsedSpeed
  deriving Repr, DecidableEq

/-- A `speedtest-status` event sent to the renderer. -/
inductive SpeedEvent where
  | statusRunning
  | completed (r : ParsedSpeed)
  | failed (msg : String)
  deriving Repr, DecidableEq

/-- The value `runSpeedtest` resolves with. -/
structure SpeedtestResponse where
  success : Bool
  error : Option String
  deriving Repr, DecidableEq

/-- The speedtest-side state: the `speedtestRunning` guard (`main.js`
line 137), the speedtest log, the issue log, and the events sent. -/
structure SpeedState where
  running : Bool
  records : List SpeedRecord
  issues : List (String × String)
  events : List SpeedEvent
  deriving Repr, DecidableEq

/-- The guard check at the top of `runSpeedtest` (`main.js` lines
141-148): when a probe is in flight, resolve
`{success: false, error: 'Speedtest already running'}` and change
nothing; otherwise set the guard and send `status = running`. The second
component is the early-resolved response, `none` when the probe starts. -/
def runSpeedtestCheck (st : SpeedState) : SpeedState × Option SpeedtestResponse :=
  if st.running then
    (st, some { success := false, error := some ("Speedtest already running") })
  else
    ({ st with running := true, events := st.events ++ [SpeedEvent.statusRunning] },
     none)

/-- The `exec` callback of `runSpeedtest` (`main.js` lines 170-199):
first `speedtestRunning = false`; on `error`, append the
`N/A,N/A,N/A,N/A` row (keeping `pingAvg`), log `SPEEDTEST_FAIL`, send
`status = failed` and resolve a failure; otherwise parse the output
(total, see `parseSpeedtestOutput`: the `catch` branch is unreachable),
append the result row, send `status = completed` and resolve a success. -/
def speedtestFinish (st : SpeedState) (pingAvg : Option ℚ)
    (error : Option String) (stdout : List Char) : SpeedState × SpeedtestResponse :=
  let st1 := { st with running := false }
  match error with
  | some e =>
    ({ st1 with
        records := st1.records ++ [{ pingAvg := pingAvg, outcome := none }],
        issues := st1.issues ++ [("SPEEDTEST_FAIL", e)],
        events := st1.events ++ [SpeedEvent.failed e] },
     { success := false, error := some e })
  | none =>
    let r := parseSpeedtestOutput stdout
    ({ st1 with
        records := st1.records ++ [{ pingAvg := pingAvg, outcome := some r }],
        events := st1.events ++ [SpeedEvent.completed r] },
     { success := true, error := none })

/-! ## Ping history (`getPingHistory`, `src/electron/database.js`
lines 165-219), aggregated mode (`intervalSec > 1`). -/

/-- A row of the `pings` table as seen by `getPingHistory`: epoch-second
timestamp, nullable latency, timeout flag. -/
structure RawPing where
  ts : ℕ
  timeMs : Option ℚ
  isTimeout : Bool
  deriving Repr, DecidableEq

/-- JavaScript `Math.round`: round half up. -/
def jsRound (q : ℚ) : ℤ := Int.floor (q + 1 / 2)

/-- An aggregated history point as returned by `getPingHistory`:
`timestamp` (bucket start, milliseconds), rounded `avg`/`min`/`max`
(zero for empty aggregates), and the per-bucket timeout count. -/
structure HistBucket where
  startMs : ℕ
  avg : ℤ
  minMs : ℤ
  maxMs : ℤ
  timeouts : ℕ
  deriving Repr, DecidableEq

/-- The distinct bucket keys `strftime('%s', timestamp) / intervalSec` of
the window, ascending (the SQL `GROUP BY ... ORDER BY timestamp`). -/
def bucketKeysAsc (interval : ℕ) (l : List RawPing) : List ℕ :=
  sortAsc ((l.map (fun s => s.ts / interval)).dedup)

/-- One aggregated bucket (`database.js` lines 193-218): over the rows of
the group, `AVG/MIN/MAX` of `time_ms` restricted to non-timeout rows
(then `Math.round`, and `0` when the aggregate is `NULL` or zero),
`SUM(is_timeout)`, and the bucket-start timestamp
`(epoch / intervalSec) * intervalSec * 1000`. -/
def aggFor (interval key : ℕ) (l : List RawPing) : HistBucket :=
  let grp := l.filter (fun s => s.ts / interval = key)
  let vals := (grp.filter (fun s => !s.isTimeout)).filterMap RawPing.timeMs
  { startMs := key * interval * 1000,
    avg := match vals with
      | [] => 0
      | v :: vs => jsRound (listAvg (v :: vs)),
    minMs := match vals with
      | [] => 0
      | v :: vs => jsRound (vs.foldl min v),
    maxMs := match vals with
      | [] => 0
      | v :: vs => jsRound (vs.foldl max v),
    timeouts := (grp.filter (fun s => s.isTimeout)).length }

/-- The aggregated branch of `getPingHistory` (`database.js` lines
192-218): restrict to the window `timestamp >= now − minutes`, group by
`epoch / intervalSec`, order by bucket start ascending, `LIMIT 120` —
i.e. the first (oldest) 120 buckets in ascending order. -/
def getPingHistoryAgg (now minutes interval : ℕ) (l : List RawPing) :
    List HistBucket :=
  let w := l.filter (fun s => now - minutes * 60 ≤ s.ts)
  ((bucketKeysAsc interval w).take 120).map (fun k => aggFor interval k w)


theorem foldl_min_le (s : ℕ) (l : List ℕ) : l.foldl min s ≤ s := by
  induction l generalizing s with
  | nil => exact le_refl s
  | cons x xs ih => exact le_trans (ih (min s x)) (min_le_left s x)

theorem le_foldl_max (s : ℕ) (l : List ℕ) : s ≤ l.foldl max s := by
  induction l generalizing s with
  | nil => exact le_refl s
  | cons x xs ih => exact le_trans (le_max_left s x) (ih (max s x))

/-- A concrete day-long store: 121 non-timeout samples of latency 1 ms,
one at the start of each minute from epoch 0 to epoch 7200 s. -/
def samples121 : List RawPing :=
  (List.range 121).map (fun i => { ts := 60 * i, timeMs := some 1, isTimeout := false })

/-! ## Helper lemmas -/

theorem insertSorted_perm {α : Type} [LinearOrder α] (x : α) (l : List α) :
    (insertSorted x l).Perm (x :: l) := by
  induction l with
  | nil => simp [insertSorted]
  | cons y ys ih =>
    by_cases h : x ≤ y
    · simp [insertSorted, h]
    · simp only [insertSorted, if_neg h]
      exact (List.Perm.cons y ih).trans (List.Perm.swap x y ys)

theorem sortAsc_perm {α : Type} [LinearOrder α] (l : List α) :
    (sortAsc l).Perm l := by
  induction l with
  | nil => simp [sortAsc]
  | cons x xs ih =>
    exact (insertSorted_perm x (sortAsc xs)).trans (List.Perm.cons x ih)

theorem length_sortAsc {α : Type} [LinearOrder α] (l : List α) :
    (sortAsc l).length = l.length :=
  (sortAsc_perm l).length_eq

theorem sorted_insertSorted {α : Type} [LinearOrder α] (x : α) (l : List α)
    (hl : l.Sorted (· ≤ ·)) : (insertSorted x l).Sorted (· ≤ ·) := by
  induction l with
  | nil => simp [insertSorted]
  | cons y ys ih =>
    by_cases h : x ≤ y
    · rw [insertSorted, if_pos h]
      refine List.sorted_cons.mpr ⟨?_, hl⟩
      intro b hb
      rcases List.mem_cons.mp hb with rfl | hb
      · exact h
      · exact le_trans h (List.rel_of_sorted_cons hl b hb)
    · have hy : y ≤ x := le_of_not_le h
      rw [insertSorted, if_neg h]
      refine List.sorted_cons.mpr ⟨?_, ih (List.Sorted.of_cons hl)⟩
      intro b hb
      have := (insertSorted_perm x ys).mem_iff.mp hb
      rcases List.mem_cons.mp this with rfl | hb'
      · exact hy
      · exact List.rel_of_sorted_cons hl b hb'

theorem sorted_sortAsc {α : Type} [LinearOrder α] (l : List α) :
    (sortAsc l).Sorted (· ≤ ·) := by
  induction l with
  | nil => simp [sortAsc, List.Sorted]
  | cons x xs ih => exact sorted_insertSorted x (sortAsc xs) ih

theorem watchdogTick_lastArrival (now : ℕ) (st : WatchdogState) :
    (watchdogTick now st).lastArrival = st.lastArrival := by
  unfold watchdogTick
  split <;> rfl

theorem runTicks_outage (ticks : List ℕ) (st : WatchdogState)
    (h : ∀ t ∈ ticks, st.lastArrival + 1500 < t) :
    (runTicks ticks st).samples
        = st.samples ++ List.replicate ticks.length timeoutMarker ∧
      (runTicks ticks st).lastArrival = st.lastArrival := by
  induction ticks generalizing st with
  | nil => simp [runTicks]
  | cons t ts ih =>
    have ht : st.lastArrival + 1500 < t := h t (List.mem_cons_self t ts)
    have hstep : watchdogTick t st = { st with samples := st.samples ++ [timeoutMarker] } := by
      unfold watchdogTick
      rw [if_pos ht]
    have hrest : ∀ u ∈ ts,
        ({ st with samples := st.samples ++ [timeoutMarker] } : WatchdogState).lastArrival + 1500 < u := by
      intro u hu
      exact h u (List.mem_cons_of_mem t hu)
    have := ih { st with samples := st.samples ++ [timeoutMarker] } hrest
    constructor
    · show (runTicks ts (watchdogTick t st)).samples = _
      rw [hstep, this.1]
      simp [List.replicate_succ]
    · show (runTicks ts (watchdogTick t st)).lastArrival = _
      rw [hstep, this.2]

/-! ## Claim theorems -/

/-- C1: while monitoring is running, each 1-second watchdog tick at time
`now` with `now − lastArrivalWallClock > 1.5s` inserts exactly one
synthetic timeout sample and leaves the arrival clock untouched; over a
whole outage it inserts one marker per tick; a tick within the threshold
inserts nothing, and a real arrival resets the arrival clock so that the
next tick is silent again. (Watchdog modelled from the spec: the
DB-backed main process holding it is not among the provided sources;
`insertTimeout` is.) -/
theorem watchdog_one_marker_per_tick (st : WatchdogState) (now : ℕ)
    (h : st.lastArrival + 1500 < now) :
    watchdogTick now st = { st with samples := st.samples ++ [timeoutMarker] } ∧
    (watchdogTick now st).lastArrival = st.lastArrival ∧
    (∀ ticks : List ℕ, (∀ t ∈ ticks, st.lastArrival + 1500 < t) →
      (runTicks ticks st).samples
        = st.samples ++ List.replicate ticks.length timeoutMarker) ∧
    (∀ (now2 : ℕ) (st2 : WatchdogState), ¬ st2.lastArrival + 1500 < now2 →
      watchdogTick now2 st2 = st2) ∧
    (∀ (t : ℕ) (lat : ℚ) (seq ttl now2 : ℕ), now2 ≤ t + 1500 →
      watchdogTick now2 (realArrival t lat seq ttl st)
        = realArrival t lat seq ttl st) ∧
    (∀ (t : ℕ) (lat : ℚ) (seq ttl : ℕ),
      (realArrival t lat seq ttl st).lastArrival = t) := by
  refine ⟨?_, ?_, ?_, ?_, ?_, ?_⟩
  · unfold watchdogTick
    rw [if_pos h]
  · exact watchdogTick_lastArrival now st
  · intro ticks ht
    exact (runTicks_outage ticks st ht).1
  · intro now2 st2 h2
    unfold watchdogTick
    rw [if_neg h2]
  · intro t lat seq ttl now2 h2
    unfold watchdogTick
    rw [if_neg (by simp [realArrival]; omega)]
  · intro t lat seq ttl
    rfl

/-- Witness for C1 at a concrete outage: last arrival at 0 ms, ticks at
2000/3000/4000 ms each insert one marker; after a real arrival at
10000 ms a tick at 11000 ms inserts nothing. -/
theorem watchdog_one_marker_per_tick_witness :
    watchdogTick 2000 ⟨0, []⟩
      = { lastArrival := 0, samples := [timeoutMarker] } ∧
    (runTicks [2000, 3000, 4000] ⟨0, []⟩).samples
      = List.replicate 3 timeoutMarker ∧
    watchdogTick 11000 (realArrival 10000 5 1 64 ⟨0, []⟩)
      = realArrival 10000 5 1 64 ⟨0, []⟩ := by
  have H := watchdog_one_marker_per_tick ⟨0, []⟩ 2000 (by decide)
  refine ⟨H.1, ?_, H.2.2.2.2.1 10000 5 1 64 11000 (by decide)⟩
  have := H.2.2.1 [2000, 3000, 4000] (by decide)
  simpa using this

/-- C4: on a real arrival at `t` after a previous real arrival at
`tPrev = lastPingTime > 0`, the gap event (logged with `logGap`, the
`TIMEOUT` issue and the `ping-timeout` notification, which the code
performs together in one branch) is produced if and only if
`t − tPrev > 2`, and then carries `gap = t − tPrev`,
`seqFrom = lastSeq`, `seqTo = seq`; a 2-second gap produces nothing,
a 3-second gap does. -/
theorem gap_event_iff_strictly_over_threshold (st : PingMonState) (t seq : ℕ)
    (hPrev : 0 < st.lastPingTime) :
    (processSample st t seq).2.1
      = (if 2 < (t : ℤ) - (st.lastPingTime : ℤ)
         then some ⟨(t : ℤ) - (st.lastPingTime : ℤ), st.lastSeq, seq⟩
         else none) ∧
    ((processSample st t seq).2.1.isSome ↔ 2 < (t : ℤ) - (st.lastPingTime : ℤ)) := by
  constructor
  · simp [processSample, detectGap, hPrev, TIMEOUT_THRESHOLD]
  · simp only [processSample, detectGap, if_pos hPrev, TIMEOUT_THRESHOLD]
    split <;> simp_all

/-- Witness for C4: previous arrival at 100 s with sequence 7; an arrival
at 102 s (gap exactly 2 s) yields no gap event, at 103 s (gap 3 s) it
yields `GapEvent{gap=3, seqFrom=7, seqTo=8}`. -/
theorem gap_event_iff_strictly_over_threshold_witness :
    (processSample ⟨100, 7⟩ 102 8).2.1 = none ∧
    (processSample ⟨100, 7⟩ 103 8).2.1 = some ⟨3, 7, 8⟩ := by
  constructor
  · rw [(gap_event_iff_strictly_over_threshold ⟨100, 7⟩ 102 8 (by decide)).1]
    norm_num
  · rw [(gap_event_iff_strictly_over_threshold ⟨100, 7⟩ 103 8 (by decide)).1]
    norm_num

/-- C5: a packet-loss event (the `PACKET_LOSS` issue plus the
`packet-loss` notification, performed together in one branch) is
produced exactly when `lastSeq > 0` and `seq > lastSeq + 1`, with
`lost = seq − (lastSeq + 1)`; the loss decision is independent of the
arrival time and the gap decision is independent of the sequence, so a
sequence-skipping sample with a 1-second gap yields loss without a gap
event, and an in-order sample after 5 seconds yields a gap event without
loss. -/
theorem loss_event_iff_sequence_skip (st : PingMonState) (t t2 seq seq2 : ℕ) :
    (processSample st t seq).2.2
      = (if 0 < st.lastSeq ∧ st.lastSeq + 1 < seq
         then some ⟨seq - (st.lastSeq + 1), st.lastSeq, seq⟩ else none) ∧
    (processSample st t seq).2.2 = (processSample st t2 seq).2.2 ∧
    (processSample st t seq).2.1.isSome = (processSample st t seq2).2.1.isSome ∧
    (processSample ⟨100, 7⟩ 101 9).2.2 = some ⟨1, 7, 9⟩ ∧
    (processSample ⟨100, 7⟩ 101 9).2.1 = none ∧
    (processSample ⟨100, 7⟩ 105 8).2.1 = some ⟨5, 7, 8⟩ ∧
    (processSample ⟨100, 7⟩ 105 8).2.2 = none := by
  refine ⟨?_, rfl, ?_, by decide, by decide, by decide, by decide⟩
  · simp only [processSample, detectLoss]
    by_cases h1 : 0 < st.lastSeq
    · by_cases h2 : st.lastSeq + 1 < seq
      · simp [h1, h2]
      · simp [h1, h2]
    · simp [h1]
  · simp only [processSample, detectGap]
    split
    · split <;> rfl
    · rfl

/-- C2 counterexample: on the even-count window `[1, 3]` the median
returned by `getPingStats` is the upper central element `3`, not the
standard median `2`. -/
theorem db_median_differs_from_standard :
    dbMed [1, 3] = 3 ∧ specMedian [1, 3] = 2 ∧ dbMed [1, 3] ≠ specMedian [1, 3] := by
  refine ⟨?_, ?_, ?_⟩ <;> norm_num [dbMed, specMedian, sortAsc, insertSorted, listAvg]

/-- C2 (amended): the median of `calcPingStats` is the standard
statistical median for every list of latencies; the median of
`getPingStats` is instead the element at index `count / 2` of the
ascending-sorted list, which agrees with the standard median whenever
the count is odd. -/
theorem median_standard_in_calc_upper_in_db (l : List ℚ) :
    calcMed l = specMedian l ∧
    (l.length % 2 = 1 → dbMed l = specMedian l) := by
  refine ⟨rfl, ?_⟩
  intro hodd
  have hpos : 0 < l.length := by
    rcases Nat.eq_zero_or_pos l.length with h | h
    · rw [h] at hodd
      simp at hodd
    · exact h
  have hlt : l.length / 2 < (sortAsc l).length := by
    rw [length_sortAsc]
    exact Nat.div_lt_self hpos one_lt_two
  have hv : (sortAsc l).get? (l.length / 2)
      = some ((sortAsc l).get ⟨l.length / 2, hlt⟩) := List.get?_eq_get hlt
  simp only [dbMed, specMedian, if_pos hodd, hv]
  rw [List.getD_eq_getElem?_getD, List.getElem?_eq_getElem hlt]
  rfl

/-- Witness for C2 at the spec's example window `[10, 12, 11, 13, 12]`
(odd count, standard median 12). -/
theorem median_standard_in_calc_upper_in_db_witness :
    calcMed [10, 12, 11, 13, 12] = specMedian [10, 12, 11, 13, 12] ∧
    dbMed [10, 12, 11, 13, 12] = specMedian [10, 12, 11, 13, 12] := by
  have H := median_standard_in_calc_upper_in_db [10, 12, 11, 13, 12]
  exact ⟨H.1, H.2 (by decide)⟩

/-- C3 counterexample: the early-resolved failure of a busy
`runSpeedtest` carries the message `'Speedtest already running'`, which
is not the string `"already running"` stated by the claim. -/
theorem speedtest_busy_error_text :
    (runSpeedtestCheck ⟨true, [], [], []⟩).2
      = some { success := false, error := some ("Speedtest already running") } ∧
    some ({ success := false, error := some ("Speedtest already running") } : SpeedtestResponse)
      ≠ some { success := false, error := some ("already running") } := by
  exact ⟨rfl, by decide⟩

/-- C3 (amended): while a probe is in flight, `runSpeedtest` resolves
`{success: false, error: 'Speedtest already running'}` and has no side
effects — the state (and so the speedtest log) is unchanged; when no
probe is in flight the call instead sets the single in-flight guard,
so at most one probe runs at a time. -/
theorem speedtest_guard_rejects_concurrent (st : SpeedState) (h : st.running = true) :
    runSpeedtestCheck st
      = (st, some { success := false, error := some ("Speedtest already running") }) ∧
    (runSpeedtestCheck st).1.records = st.records ∧
    (∀ st2 : SpeedState, st2.running = false →
      (runSpeedtestCheck st2).2 = none ∧
      (runSpeedtestCheck st2).1.running = true ∧
      (runSpeedtestCheck st2).1.records = st2.records) := by
  refine ⟨by simp [runSpeedtestCheck, h], by simp [runSpeedtestCheck, h], ?_⟩
  intro st2 h2
  refine ⟨by simp [runSpeedtestCheck, h2], by simp [runSpeedtestCheck, h2],
    by simp [runSpeedtestCheck, h2]⟩

/-- Witness for C3: a busy state with an empty log is returned unchanged
together with the failure response. -/
theorem speedtest_guard_rejects_concurrent_witness :
    runSpeedtestCheck ⟨true, [], [], []⟩
      = (⟨true, [], [], []⟩,
         some { success := false, error := some ("Speedtest already running") }) :=
  (speedtest_guard_rejects_concurrent ⟨true, [], [], []⟩ rfl).1

/-- C8: packet-loss statistics satisfy
`expected = lastSeq − firstSeq + 1` (with `firstSeq ≤ lastSeq`, so the
natural subtraction is the claimed one), `lost = max(0, expected −
actualCount)`, `percent = lost / expected × 100`; the empty window
yields all zeroes (in particular `percent = 0` when `expected = 0`),
and the sequence set `{1, 2, 5}` yields `expected = 5`, `lost = 2`,
`percent = 40`. -/
theorem packet_loss_stats_formulas (s : ℕ) (rest : List ℕ) :
    (getPacketLoss (s :: rest)).total
      = rest.foldl max s - rest.foldl min s + 1 ∧
    rest.foldl min s ≤ rest.foldl max s ∧
    ((getPacketLoss (s :: rest)).lost : ℤ)
      = max 0 (((getPacketLoss (s :: rest)).total : ℤ) - ((s :: rest).length : ℤ)) ∧
    (getPacketLoss (s :: rest)).percent
      = ((getPacketLoss (s :: rest)).lost : ℚ)
          / ((getPacketLoss (s :: rest)).total : ℚ) * 100 ∧
    getPacketLoss [] = ⟨0, 0, 0⟩ ∧
    getPacketLoss [1, 2, 5] = ⟨40, 2, 5⟩ := by
  have hminmax : rest.foldl min s ≤ rest.foldl max s :=
    le_trans (foldl_min_le s rest) (le_foldl_max s rest)
  refine ⟨rfl, hminmax, ?_, rfl, rfl, ?_⟩
  · simp only [getPacketLoss]
    omega
  · norm_num [getPacketLoss]

theorem jsParseFloat_zero_literal : jsParseFloat ['0'] = some 0 := by
  have h : jsParseParts ['0'] = some (false, ['0'], []) := by decide
  rw [jsParseFloat, h]
  norm_num [natOfDigits]
  decide

/-- C6 counterexample: with a log holding one line an hour old (latency
100) and one inside the 5-minute window (latency 10), the recorded
`pingAvg` is 55 — the mean over the last 100 lines — while the 5-minute
window mean is 10. -/
theorem pingAvg_not_five_minute_window :
    pingAvgLast100 [⟨0, some 100⟩, ⟨3600, some 10⟩] = some 55 ∧
    windowAvg5 3600 [⟨0, some 100⟩, ⟨3600, some 10⟩] = some 10 ∧
    pingAvgLast100 [⟨0, some 100⟩, ⟨3600, some 10⟩]
      ≠ windowAvg5 3600 [⟨0, some 100⟩, ⟨3600, some 10⟩] := by
  refine ⟨?_, ?_, ?_⟩
  · norm_num [pingAvgLast100, lastN, List.filterMap_cons]
  · norm_num [windowAvg5, List.filterMap_cons]
  · norm_num [pingAvgLast100, windowAvg5, lastN, List.filterMap_cons]

/-- C6 (amended): the `pingAvgMs` recorded with a speedtest is the
arithmetic mean of the parseable latencies among the last 100 lines of
today's ping log — not of a 5-minute window — and is absent exactly when
no such latency exists. -/
theorem pingAvg_mean_of_last100 (log : List PingLogEntry) :
    (pingAvgLast100 log = none ↔
      (lastN 100 log).filterMap PingLogEntry.latency = []) ∧
    (∀ a, pingAvgLast100 log = some a →
      a = ((lastN 100 log).filterMap PingLogEntry.latency).sum
            / (((lastN 100 log).filterMap PingLogEntry.latency).length : ℚ)) := by
  constructor
  · constructor
    · intro h
      by_contra hne
      have hlen : ((lastN 100 log).filterMap PingLogEntry.latency).length ≠ 0 := by
        simpa [List.length_eq_zero] using hne
      simp [pingAvgLast100, hlen] at h
    · intro h
      simp [pingAvgLast100, h]
  · intro a ha
    by_cases h : ((lastN 100 log).filterMap PingLogEntry.latency).length = 0
    · simp [pingAvgLast100, h] at ha
    · simp only [pingAvgLast100, if_neg h] at ha
      exact (Option.some.injEq _ _ ▸ ha).symm

/-- Witness for C6 at a one-line log of latency 5. -/
theorem pingAvg_mean_of_last100_witness :
    (5 : ℚ) = ((lastN 100 [(⟨0, some 5⟩ : PingLogEntry)]).filterMap PingLogEntry.latency).sum
        / (((lastN 100 [(⟨0, some 5⟩ : PingLogEntry)]).filterMap PingLogEntry.latency).length : ℚ) :=
  (pingAvg_mean_of_last100 [⟨0, some 5⟩]).2 5
    (by simp [pingAvgLast100, lastN, List.filterMap_cons])

/-- C9: a failed probe still appends exactly one speedtest record, with
all throughput fields absent but `pingAvg` preserved, logs the
`SPEEDTEST_FAIL` issue, sends a `failed` status event with the error
message, resolves a failure — and the in-flight guard is cleared on
every exit path of the callback. -/
theorem speedtest_failure_single_record (st : SpeedState) (pa : Option ℚ)
    (e : String) (out : List Char) :
    (speedtestFinish st pa (some e) out).1.records
      = st.records ++ [{ pingAvg := pa, outcome := none }] ∧
    (speedtestFinish st pa (some e) out).1.issues
      = st.issues ++ [("SPEEDTEST_FAIL", e)] ∧
    (speedtestFinish st pa (some e) out).1.events
      = st.events ++ [SpeedEvent.failed e] ∧
    (speedtestFinish st pa (some e) out).2 = { success := false, error := some e } ∧
    (∀ (err : Option String) (out2 : List Char),
      (speedtestFinish st pa err out2).1.running = false) := by
  refine ⟨rfl, rfl, rfl, rfl, ?_⟩
  intro err out2
  cases err <;> rfl

/-- C10 counterexample: a zero-exit output whose download field is the
non-numeric, non-empty string `abc` parses to `NaN` (absent), not to the
claimed default 0. -/
theorem malformed_field_gives_nan_not_zero :
    (parseSpeedtestOutput ("a,b,srv,d,e,9.5,abc,xyz".data)).download = none ∧
    (parseSpeedtestOutput ("a,b,srv,d,e,9.5,abc,xyz".data)).download ≠ some 0 := by
  exact ⟨by decide, by decide⟩

/-- C10 (amended): for every stdout of a zero-exit probe `runSpeedtest`
resolves `{success: true}` and logs no issue — the parse-error branch is
unreachable; a missing or empty CSV field falls back to its default
(server `Unknown`, latency `0`, download/upload 0), while a non-empty
non-numeric numeric field yields `NaN` (see the counterexample) rather
than 0. -/
theorem zero_exit_probe_always_succeeds (st : SpeedState) (pa : Option ℚ)
    (out : List Char) :
    (speedtestFinish st pa none out).2 = { success := true, error := none } ∧
    (speedtestFinish st pa none out).1.issues = st.issues ∧
    (speedtestFinish st pa none out).1.records
      = st.records ++ [{ pingAvg := pa, outcome := some (parseSpeedtestOutput out) }] ∧
    ((splitComma (jsTrim out)).length ≤ 2 →
      (parseSpeedtestOutput out).server = ("Unknown".data)) ∧
    ((splitComma (jsTrim out)).length ≤ 5 →
      (parseSpeedtestOutput out).latency = ("0".data)) ∧
    ((splitComma (jsTrim out)).length ≤ 6 →
      (parseSpeedtestOutput out).download = some 0) ∧
    ((splitComma (jsTrim out)).length ≤ 7 →
      (parseSpeedtestOutput out).upload = some 0) := by
  refine ⟨rfl, rfl, rfl, ?_, ?_, ?_, ?_⟩
  · intro hlen
    have hd : (splitComma (jsTrim out))[2]? = (none : Option (List Char)) :=
      List.getElem?_eq_none hlen
    simp [parseSpeedtestOutput, hd, jsOr]
  · intro hlen
    have hd : (splitComma (jsTrim out))[5]? = (none : Option (List Char)) :=
      List.getElem?_eq_none hlen
    simp [parseSpeedtestOutput, hd, jsOr]
  · intro hlen
    have hd : (splitComma (jsTrim out))[6]? = (none : Option (List Char)) :=
      List.getElem?_eq_none hlen
    simp [parseSpeedtestOutput, hd, jsOr, jsParseFloat_zero_literal]
  · intro hlen
    have hd : (splitComma (jsTrim out))[7]? = (none : Option (List Char)) :=
      List.getElem?_eq_none hlen
    simp [parseSpeedtestOutput, hd, jsOr, jsParseFloat_zero_literal]

/-- Witness for C10: the one-field output `x` resolves as a success with
default server and zero download. -/
theorem zero_exit_probe_always_succeeds_witness :
    (speedtestFinish ⟨false, [], [], []⟩ none none ("x".data)).2
      = { success := true, error := none } ∧
    (parseSpeedtestOutput ("x".data)).server = ("Unknown".data) ∧
    (parseSpeedtestOutput ("x".data)).download = some 0 := by
  have H := zero_exit_probe_always_succeeds ⟨false, [], [], []⟩ none "x".data
  exact ⟨H.1, H.2.2.2.1 (by decide), H.2.2.2.2.2.1 (by decide)⟩

theorem bucketKeysAsc_sorted_lt (interval : ℕ) (l : List RawPing) :
    List.Sorted (· < ·) (bucketKeysAsc interval l) := by
  have hs : List.Sorted (· ≤ ·) (bucketKeysAsc interval l) := sorted_sortAsc _
  have hnd : (bucketKeysAsc interval l).Nodup :=
    ((sortAsc_perm _).nodup_iff).mpr (List.nodup_dedup _)
  exact hs.lt_of_le hnd

/-- C7 (amended): for every window and `intervalSeconds > 1`, the
aggregated ping history partitions the window into buckets aligned to
`floor(epoch / intervalSeconds) × intervalSeconds`, returns at most 120
buckets in strictly ascending time order — but they are the *oldest*
120 buckets of the window (`ORDER BY timestamp LIMIT 120`), not the most
recent ones (see the counterexample). -/
theorem ping_history_oldest_120_aligned (now minutes interval : ℕ)
    (l : List RawPing) (h : 1 < interval) :
    (getPingHistoryAgg now minutes interval l).length ≤ 120 ∧
    (∀ b ∈ getPingHistoryAgg now minutes interval l,
      (b.startMs / 1000) % interval = 0) ∧
    List.Sorted (· < ·)
      ((getPingHistoryAgg now minutes interval l).map HistBucket.startMs) ∧
    getPingHistoryAgg now minutes interval l
      = ((bucketKeysAsc interval (l.filter (fun s => now - minutes * 60 ≤ s.ts))).map
          (fun k => aggFor interval k
            (l.filter (fun s => now - minutes * 60 ≤ s.ts)))).take 120 := by
  have h0 : 0 < interval := lt_trans Nat.zero_lt_one h
  refine ⟨?_, ?_, ?_, ?_⟩
  · simp only [getPingHistoryAgg, List.length_map]
    exact List.length_take_le _ _
  · intro b hb
    simp only [getPingHistoryAgg, List.mem_map] at hb
    obtain ⟨k, hk, rfl⟩ := hb
    show ((k * interval * 1000) / 1000) % interval = 0
    rw [Nat.mul_div_cancel _ (by norm_num : (0:ℕ) < 1000)]
    exact Nat.mul_mod_left k interval
  · simp only [getPingHistoryAgg, List.map_map]
    have hkeys : List.Sorted (· < ·)
        ((bucketKeysAsc interval
          (l.filter (fun s => now - minutes * 60 ≤ s.ts))).take 120) :=
      List.Pairwise.sublist (List.take_sublist _ _)
        (bucketKeysAsc_sorted_lt interval _)
    refine List.Pairwise.map _ ?_ hkeys
    intro a b hab
    exact Nat.mul_lt_mul_of_pos_right
      (Nat.mul_lt_mul_of_pos_right hab h0) (by norm_num : (0:ℕ) < 1000)
  · simp only [getPingHistoryAgg]
    rw [List.map_take]

/-- Witness for C7 at a one-sample store with a 60-second interval. -/
theorem ping_history_oldest_120_aligned_witness :
    (getPingHistoryAgg 0 1 60
      [{ ts := 0, timeMs := some 1, isTimeout := false }]).length ≤ 120 :=
  (ping_history_oldest_120_aligned 0 1 60
    [{ ts := 0, timeMs := some 1, isTimeout := false }] (by decide)).1

set_option maxRecDepth 100000 in
/-- C7 counterexample: a day-long window holding 121 one-minute buckets
(`samples121`). The aggregated history returns 120 buckets, none of them
the bucket of the most recent in-window sample (start 7200000 ms) — the
query keeps the oldest 120 buckets, not the most recent 120. -/
theorem ping_history_drops_newest_bucket :
    (getPingHistoryAgg 86400 1440 60 samples121).length = 120 ∧
    (∀ b ∈ getPingHistoryAgg 86400 1440 60 samples121, b.startMs < 7200000) ∧
    ({ ts := 7200, timeMs := some 1, isTimeout := false } : RawPing) ∈ samples121 ∧
    86400 - 1440 * 60 ≤ 7200 := by
  refine ⟨?_, ?_, ?_, ?_⟩ <;> decide

end NetMon
